import Mathlib

/-!
Shallow embedding of `main.py` of the marlinTimelapser repository: the G-code
streaming loop, its temperature-wait sub-protocols, the layer counter, the
remaining-time estimator and the pass-through dispatch.  Python strings are
Lean `String`s handled through their character lists.  The Python `float`
values the program manipulates all arise from short decimal literals in
G-code, and every operation performed on them (parsing, comparison,
subtraction by an `int`, textual formatting) is exact on such values in
CPython; they are therefore modelled by exact decimals `Dec` (an integer
numerator over a power of ten, kept in lowest decimal terms), together with
bridging lemmas into `ℚ` for the numeric-comparison statements.
-/

/-- The whitespace characters stripped by Python's `str.strip()`. -/
def isPyWs (c : Char) : Bool :=
  c == ' ' || c == '\t' || c == '\n' || c == '\r' || c == '\x0b' || c == '\x0c'

/-- `str.strip()` on a character list. -/
def stripWsL (l : List Char) : List Char :=
  ((l.dropWhile isPyWs).reverse.dropWhile isPyWs).reverse

/-- `str.strip()`. -/
def pyStrip (s : String) : String := String.mk (stripWsL s.data)

/-- Python's `in` operator on strings (substring containment), on lists. -/
def infixOfL (pat : List Char) : List Char → Bool
  | [] => pat.isEmpty
  | c :: cs => pat.isPrefixOf (c :: cs) || infixOfL pat cs

/-- Python's `pat in s` substring test. -/
def containsSubstr (s pat : String) : Bool := infixOfL pat.data s.data

/-- Python's `s.startswith(p)`. -/
def pyStartsWith (s p : String) : Bool := p.data.isPrefixOf s.data

/-- ASCII lower-casing, the fragment of Python's `str.lower()` the program
relies on (all strings involved are ASCII). -/
def pyLower (s : String) : String := String.mk (s.data.map Char.toLower)

/-- `s.split(ch)` for a one-character separator, on lists. -/
def splitCh (ch : Char) : List Char → List (List Char)
  | [] => [[]]
  | c :: cs =>
    if c == ch then [] :: splitCh ch cs
    else
      match splitCh ch cs with
      | [] => [[c]]
      | t :: ts => (c :: t) :: ts

/-- `s.split(ch)` for a one-character separator. -/
def pySplitCh (s : String) (ch : Char) : List String :=
  (splitCh ch s.data).map String.mk

/-- Numeric value of a run of decimal digits. -/
def digitsVal (ds : List Char) : Nat :=
  ds.foldl (fun a c => 10 * a + (c.toNat - 48)) 0

/-- An exact decimal `num / 10 ^ den10`: the model of a Python `float` holding
a value parsed from a decimal literal.  Kept in lowest decimal terms
(`den10` minimal) by the smart constructor `Dec.norm`. -/
structure Dec where
  num : Int
  den10 : Nat
deriving DecidableEq, Repr

/-- Strip factors of ten from a decimal representation. -/
def normAux : Int → Nat → Int × Nat
  | n, 0 => (n, 0)
  | n, k + 1 => if n % 10 == 0 then normAux (n / 10) k else (n, k + 1)

/-- Build a `Dec` in lowest decimal terms. -/
def Dec.norm (n : Int) (k : Nat) : Dec :=
  ⟨(normAux n k).1, (normAux n k).2⟩

/-- The rational value of an exact decimal. -/
def Dec.toRat (a : Dec) : ℚ := (a.num : ℚ) / 10 ^ a.den10

/-- Python's `<=` on two floats holding exact decimals. -/
def Dec.le (a b : Dec) : Bool := a.num * 10 ^ b.den10 ≤ b.num * 10 ^ a.den10

/-- `int - float` / `float - float` in Python, exact on decimals. -/
def Dec.sub (a b : Dec) : Dec :=
  let k := max a.den10 b.den10
  Dec.norm (a.num * 10 ^ (k - a.den10) - b.num * 10 ^ (k - b.den10)) k

/-- The float a Python `int` converts to. -/
def Dec.ofInt (n : Int) : Dec := ⟨n, 0⟩

/-- Python's textual rendering (`repr` / f-string interpolation) of a float
holding the exact decimal `a`, for the short decimal values the program
manipulates: the shortest exact decimal form with at least one fractional
digit (`200.0`, `199.9`, `60.5`), which is what CPython prints for them. -/
def Dec.pyRepr (a : Dec) : String :=
  let m := a.num.natAbs
  let ds := Nat.toDigits 10 m
  let ds := List.replicate (a.den10 + 1 - ds.length) '0' ++ ds
  let ip := ds.take (ds.length - a.den10)
  let fp := ds.drop (ds.length - a.den10)
  (if a.num < 0 then "-" else "") ++ String.mk ip ++ "." ++
    (if a.den10 == 0 then "0" else String.mk fp)

/-- Python's `float(s)` on the decimal/exponent literals G-code uses: optional
surrounding whitespace, optional sign, digits with optional fraction, optional
exponent.  (`inf`, `nan` and digit underscores are outside the model.) -/
def pyParseFloatL (cs0 : List Char) : Option Dec :=
  let cs := stripWsL cs0
  let sgncs : Int × List Char :=
    match cs with
    | '+' :: t => (1, t)
    | '-' :: t => (-1, t)
    | t => (1, t)
  let sgn := sgncs.1
  let cs1 := sgncs.2
  let ip := cs1.takeWhile Char.isDigit
  let r1 := cs1.drop ip.length
  let fpr : List Char × List Char :=
    match r1 with
    | '.' :: t => (t.takeWhile Char.isDigit, t.drop (t.takeWhile Char.isDigit).length)
    | t => ([], t)
  let fp := fpr.1
  let r2 := fpr.2
  if ip.isEmpty && fp.isEmpty then none
  else
    let num0 : Int := sgn * (digitsVal ip * 10 ^ fp.length + digitsVal fp)
    let den0 : Nat := fp.length
    match r2 with
    | [] => some (Dec.norm num0 den0)
    | e :: t =>
      if e == 'e' || e == 'E' then
        let esgnt : Bool × List Char :=
          match t with
          | '+' :: u => (true, u)
          | '-' :: u => (false, u)
          | u => (true, u)
        let eds := esgnt.2.takeWhile Char.isDigit
        if eds.isEmpty || !(esgnt.2.drop eds.length).isEmpty then none
        else
          let ev := digitsVal eds
          if esgnt.1 then
            if ev ≤ den0 then some (Dec.norm num0 (den0 - ev))
            else some (Dec.norm (num0 * 10 ^ (ev - den0)) 0)
          else some (Dec.norm num0 (den0 + ev))
      else none

/-- Python's `float(s)`. -/
def pyParseFloat (s : String) : Option Dec := pyParseFloatL s.data

/-- Python's `int(s)`: optional surrounding whitespace, optional sign, a
nonempty run of digits. -/
def pyParseIntL (cs0 : List Char) : Option Int :=
  let cs := stripWsL cs0
  let sgncs : Int × List Char :=
    match cs with
    | '+' :: t => (1, t)
    | '-' :: t => (-1, t)
    | t => (1, t)
  if sgncs.2.isEmpty || !sgncs.2.all Char.isDigit then none
  else some (sgncs.1 * (digitsVal sgncs.2 : Int))

/-- Python's `int(s)`. -/
def pyParseInt (s : String) : Option Int := pyParseIntL s.data

/-- `main.py` `clean_line`: remove the trailing `;` comment and strip. -/
def clean_line (line : String) : String :=
  pyStrip ((pySplitCh line ';').getD 0 "")

/-- `main.py` `parse_temp`: extract the target temperature from a G-code line.
Mirrors `float(clean_line(line).split("S")[1])` with every exception mapped to
`none` (the bare `except` catches both `ValueError` and `IndexError`). -/
def parse_temp (line : String) : Option Dec :=
  let l := clean_line line
  if containsSubstr l "S" then pyParseFloatL ((splitCh 'S' l.data).getD 1 [])
  else none

/-- `"ok" in resp.lower()`: the acknowledgment test of `send_gcode` and both
temperature-wait loops. -/
def ackOk (resp : String) : Bool := containsSubstr (pyLower resp) "ok"

/-- The text after the first `"B:"` of a response (`resp.split("B:")[1]`
begins here), `none` when `"B:"` does not occur. -/
def afterBColon : List Char → Option (List Char)
  | [] => none
  | 'B' :: ':' :: rest => some rest
  | _ :: rest => afterBColon rest

/-- Truncation at the next `"B:"`: `resp.split("B:")[1]` ends here. -/
def upToBColon : List Char → List Char
  | [] => []
  | 'B' :: ':' :: _ => []
  | c :: rest => c :: upToBColon rest

/-- The parsed bed temperature of one `M105` response:
`float(resp.split("B:")[1].split()[0])` with `IndexError`/`ValueError`
mapped to `none`, guarded by `"B:" in resp`. -/
def bedTemp (resp : String) : Option Dec :=
  if containsSubstr resp "B:" then
    match afterBColon resp.data with
    | none => none
    | some rest =>
      let tok := ((upToBColon rest).dropWhile isPyWs).takeWhile (fun c => !isPyWs c)
      if tok.isEmpty then none else pyParseFloatL tok
  else none

/-- Exit condition of the `M109` nozzle-wait loop:
`"ok" in resp.lower() and f"T:{target}" in resp`. -/
def nozzleExit (target : Dec) (resp : String) : Bool :=
  ackOk resp && containsSubstr resp ("T:" ++ target.pyRepr)

/-- Exit condition of the `M190` bed-wait loop: the acknowledgment token,
a `B:` report, and parsed value `>= target`. -/
def bedExit (target : Dec) (resp : String) : Bool :=
  ackOk resp &&
    (match bedTemp resp with
     | some c => Dec.le target c
     | none => false)

/-- Session state of one streaming run (`main.py` module-level variables and
the loop locals): the layer counter, `total_time` (`none` until set; the
`-1` sentinel is an ordinary value of it), `elapsed_time`, the progress-bar
count, the commands passed to `send_gcode` in order, the number of `M105`
polls written, and the remaining-time values displayed in order. -/
structure St where
  layer : Nat
  total_time : Option Int
  elapsed_time : Dec
  progress : Nat
  sent : List String
  polls : Nat
  displays : List Dec
deriving DecidableEq, Repr

/-- The initial session state. -/
def st0 : St :=
  { layer := 0, total_time := none, elapsed_time := ⟨0, 0⟩, progress := 0,
    sent := [], polls := 0, displays := [] }

/-- `send_gcode` under a transport stub whose every read during this
acknowledgment wait returns `ackResp`: the command is written, then the loop
reads until a line contains the token; with a constant responder it exits on
the first read or never (`none` = stall). -/
def send_gcode (ackResp : String) (st : St) (cmd : String) : Option St :=
  if ackOk ackResp then some { st with sent := st.sent ++ [cmd] } else none

/-- A temperature-wait polling loop: each iteration writes one `M105` poll,
reads the stub's next reply, and stops when the exit condition holds; `none`
when the reply list is exhausted without it holding (so a stub that never
matches gives `none` for every reply count: the loop stalls). -/
def pollLoop (exit : String → Bool) (st : St) : List String → Option St
  | [] => none
  | r :: rs =>
    let st1 := { st with polls := st.polls + 1 }
    if exit r then some st1 else pollLoop exit st1 rs

/-- The `M109` nozzle-wait loop over the stub's successive poll replies. -/
def nozzleWaitGo (target : Dec) : St → List String → Option St :=
  pollLoop (nozzleExit target)

/-- The `M190` bed-wait loop, same reading of the reply list. -/
def bedWaitGo (target : Dec) : St → List String → Option St :=
  pollLoop (bedExit target)

/-- The blank-or-comment test `not line or line.startswith(";")`. -/
def blankOrComment (line : String) : Bool :=
  line == "" || pyStartsWith line ";"

/-- Layer-change handling inside the comment branch:
`if ";LAYER_CHANGE" in raw_line: layer += 1; take_picture(layer)`.
Returns the updated state and the capture invocations that reach the camera
(`take_picture` returns immediately when recording is disabled). -/
def layerStep (record : Bool) (st : St) (raw : String) : St × List Nat :=
  if containsSubstr raw ";LAYER_CHANGE" then
    ({ st with layer := st.layer + 1 },
     if record then [st.layer + 1] else [])
  else (st, [])

/-- The `;TIME:` / `;TIME_ELAPSED:` parsing of the comment branch (`main.py`
lines 179-189), acting on the `(total_time, elapsed_time)` pair: a well-formed
`;TIME:` overwrites the total, a well-formed `;TIME_ELAPSED:` overwrites the
elapsed value, malformed payloads leave the pair unchanged. -/
def timeUpd (te : Option Int × Dec) (line : String) : Option Int × Dec :=
  if pyStartsWith line ";TIME:" then
    match pyParseInt ((pySplitCh line ':').getD 1 "") with
    | some n => (some n, te.2)
    | none => te
  else if pyStartsWith line ";TIME_ELAPSED:" then
    match pyParseFloat ((pySplitCh line ':').getD 1 "") with
    | some q => (te.1, q)
    | none => te
  else te

/-- The `;TIME:` / `;TIME_ELAPSED:` parsing and the remaining-time display of
the comment branch (`main.py` lines 179-194). -/
def commentUpd (st : St) (line : String) : St :=
  let te := timeUpd (st.total_time, st.elapsed_time) line
  match te.1 with
  | some t =>
    { st with total_time := te.1, elapsed_time := te.2,
              displays := st.displays ++ [Dec.sub (Dec.ofInt t) te.2] }
  | none => { st with total_time := te.1, elapsed_time := te.2 }

/-- The heating/pass-through dispatch of the main loop (`main.py` lines
202-242), acting on the already-stripped line. -/
def commandDispatch (ackResp : String) (pollResps : List String) (st : St)
    (line : String) : Option St :=
  if pyStartsWith line "M104" then
    match parse_temp line with
    | some _ => send_gcode ackResp st line
    | none => some st
  else if pyStartsWith line "M109" then
    match parse_temp line with
    | some t => (send_gcode ackResp st line).bind (fun s => nozzleWaitGo t s pollResps)
    | none => some st
  else if pyStartsWith line "M190" then
    match parse_temp line with
    | some t => (send_gcode ackResp st line).bind (fun s => bedWaitGo t s pollResps)
    | none => some st
  else send_gcode ackResp st line

/-- The missing-`;TIME:` sentinel (`main.py` lines 198-200): on a non-comment
line with no total known yet, `total_time` is set to `-1`. -/
def sentinelSt (st : St) : St :=
  if st.total_time = none then { st with total_time := some (-1) } else st

/-- One iteration of the main loop on a raw file line: the comment branch
(layer change, time comments, display, `continue`) or the missing-`;TIME:`
sentinel followed by command dispatch and the progress-bar update. -/
def procLine (record : Bool) (ackResp : String) (pollResps : List String)
    (st : St) (raw : String) : Option (St × List Nat) :=
  let line := pyStrip raw
  if blankOrComment line then
    some (commentUpd (layerStep record st raw).1 line, (layerStep record st raw).2)
  else
    (commandDispatch ackResp pollResps (sentinelSt st) line).map
      (fun s => ({ s with progress := s.progress + 1 }, []))

/-- The main loop over the remaining file lines, accumulating capture
invocations; `none` when a wait stalls. -/
def runGo (record : Bool) (ackResp : String) (pollResps : List String) :
    St → List Nat → List String → Option (St × List Nat)
  | st, caps, [] => some (st, caps)
  | st, caps, l :: ls =>
    match procLine record ackResp pollResps st l with
    | none => none
    | some (st1, c) => runGo record ackResp pollResps st1 (caps ++ c) ls

/-- A whole streaming run from the initial state. -/
def run (record : Bool) (ackResp : String) (pollResps : List String)
    (lines : List String) : Option (St × List Nat) :=
  runGo record ackResp pollResps st0 [] lines

/-- A raw line the code treats as a layer change: it reaches the comment
branch and the raw text contains `";LAYER_CHANGE"`. -/
def isLC (raw : String) : Bool :=
  blankOrComment (pyStrip raw) && containsSubstr raw ";LAYER_CHANGE"

/-- The estimator as the (amended) specification describes it, isolated from
transport, capture and layer bookkeeping: the declared total (`none` until the
first well-formed `;TIME:`, with `-1` installed as a sentinel when a
non-comment line arrives first), the last elapsed value, and the sequence of
remaining-time values displayed. -/
structure Est where
  total_time : Option Int
  elapsed_time : Dec
  out : List Dec
deriving DecidableEq, Repr

/-- The estimator view of a session state. -/
def estView (st : St) : Est := ⟨st.total_time, st.elapsed_time, st.displays⟩

/-- One estimator step per the amended claim: a comment-class line first
applies any well-formed time annotation (last write wins) and then, when a
total is known, displays `total - elapsed` (negative values rendered as-is);
a command-class line installs the `-1` sentinel if no total is known yet and
displays nothing. -/
def estStep (s : Est) (raw : String) : Est :=
  let line := pyStrip raw
  if blankOrComment line then
    let te := timeUpd (s.total_time, s.elapsed_time) line
    match te.1 with
    | some t => ⟨te.1, te.2, s.out ++ [Dec.sub (Dec.ofInt t) te.2]⟩
    | none => ⟨te.1, te.2, s.out⟩
  else if s.total_time = none then { s with total_time := some (-1) } else s

/-- The estimator run over a whole file. -/
def estRun (lines : List String) : Est :=
  lines.foldl estStep ⟨none, ⟨0, 0⟩, []⟩

/-- The four-line end-to-end file of C1. -/
def c1lines : List String := ["G28\n", ";LAYER_CHANGE\n", "M109 S200\n", "G1 X10\n"]

/-! ### Basic string and list lemmas -/

theorem str_data_append (a b : String) : (a ++ b).data = a.data ++ b.data := by
  cases a; cases b; rfl

theorem str_mk_data (s : String) : String.mk s.data = s := by
  cases s; rfl

theorem isPrefixOf_self_append (p t : List Char) : p.isPrefixOf (p ++ t) = true := by
  induction p with
  | nil => simp [List.isPrefixOf]
  | cons c cs ih => simp [List.isPrefixOf, ih]

theorem infixOfL_singleton (c : Char) (l : List Char) :
    infixOfL [c] l = true ↔ c ∈ l := by
  induction l with
  | nil => simp [infixOfL]
  | cons d ds ih =>
    rw [show infixOfL [c] (d :: ds) = ([c].isPrefixOf (d :: ds) || infixOfL [c] ds) from rfl]
    simp only [List.isPrefixOf, Bool.and_true, Bool.or_eq_true, beq_iff_eq, ih,
      List.mem_cons]

theorem splitCh_of_not_mem (ch : Char) (l : List Char) (h : ch ∉ l) :
    splitCh ch l = [l] := by
  induction l with
  | nil => rfl
  | cons c cs ih =>
    have hc : (c == ch) = false := by
      simp only [beq_eq_false_iff_ne]
      intro hcc
      exact h (hcc ▸ List.mem_cons_self c cs)
    have hcs : ch ∉ cs := fun hm => h (List.mem_cons_of_mem c hm)
    simp [splitCh, hc, ih hcs]

theorem splitCh_append_cons (ch : Char) (a b : List Char) (h : ch ∉ a) :
    splitCh ch (a ++ ch :: b) = a :: splitCh ch b := by
  induction a with
  | nil => simp [splitCh]
  | cons c cs ih =>
    have hc : (c == ch) = false := by
      simp only [beq_eq_false_iff_ne]
      intro hcc
      exact h (hcc ▸ List.mem_cons_self c cs)
    have hcs : ch ∉ cs := fun hm => h (List.mem_cons_of_mem c hm)
    simp [splitCh, hc, ih hcs]

/-! ### Wait-loop lemmas -/

theorem pollLoop_none (p : String → Bool) :
    ∀ (resps : List String), (∀ r ∈ resps, p r = false) →
      ∀ st, pollLoop p st resps = none := by
  intro resps
  induction resps with
  | nil => intro _ st; rfl
  | cons r rs ih =>
    intro h st
    have hr : p r = false := h r (List.mem_cons_self r rs)
    have hrs : ∀ x ∈ rs, p x = false := fun x hx => h x (List.mem_cons_of_mem r hx)
    simp [pollLoop, hr, ih hrs]

theorem pollLoop_some_iff (p : String → Bool) :
    ∀ (resps : List String) (st st' : St),
      pollLoop p st resps = some st' ↔
        ∃ i, i < resps.length ∧ p (resps.getD i "") = true ∧
          (∀ j, j < i → p (resps.getD j "") = false) ∧
          st' = { st with polls := st.polls + i + 1 } := by
  intro resps
  induction resps with
  | nil =>
    intro st st'
    simp [pollLoop]
  | cons r rs ih =>
    intro st st'
    by_cases hr : p r = true
    · simp only [pollLoop, hr, if_true]
      constructor
      · intro h
        have hst : st' = { st with polls := st.polls + 1 } := (Option.some_inj.mp h).symm
        refine ⟨0, by simp, by simpa using hr, ?_, by simp [hst]⟩
        intro j hj
        exact absurd hj (by omega)
      · rintro ⟨i, hi, hpi, hprev, hst⟩
        rcases Nat.eq_zero_or_pos i with h0 | hpos
        · subst h0
          simp [hst]
        · have hf : p r = false := by simpa using hprev 0 hpos
          rw [hf] at hr
          cases hr
    · have hr' : p r = false := by simpa using hr
      simp only [pollLoop, hr', Bool.false_eq_true, if_false]
      rw [ih]
      constructor
      · rintro ⟨i, hi, hpi, hprev, hst⟩
        have harith : st.polls + 1 + i + 1 = st.polls + (i + 1) + 1 := by omega
        refine ⟨i + 1, by simp only [List.length_cons]; omega,
          by simpa using hpi, ?_, by rw [hst, harith]⟩
        intro j hj
        cases j with
        | zero => simpa using hr'
        | succ k => simpa using hprev k (by omega)
      · rintro ⟨i, hi, hpi, hprev, hst⟩
        cases i with
        | zero =>
          have hf : p r = true := by simpa using hpi
          rw [hf] at hr'
          cases hr'
        | succ k =>
          have harith : st.polls + (k + 1) + 1 = st.polls + 1 + k + 1 := by omega
          refine ⟨k, by simp only [List.length_cons] at hi; omega,
            by simpa using hpi, ?_, by rw [hst, harith]⟩
          intro j hj
          simpa using hprev (j + 1) (by omega)

theorem pollLoop_shape (p : String → Bool) (resps : List String) (st st' : St)
    (h : pollLoop p st resps = some st') : st' = { st with polls := st'.polls } := by
  rcases (pollLoop_some_iff p resps st st').mp h with ⟨i, _, _, _, hst⟩
  simp [hst]

/-! ### Step lemmas for one main-loop iteration -/

theorem send_gcode_some (a : String) (st : St) (cmd : String) (st' : St)
    (h : send_gcode a st cmd = some st') :
    st' = { st with sent := st.sent ++ [cmd] } := by
  unfold send_gcode at h
  by_cases hok : ackOk a = true
  · rw [if_pos hok] at h
    exact (Option.some_inj.mp h).symm
  · rw [if_neg hok] at h
    cases h

theorem pollLoop_fields (p : String → Bool) (resps : List String) (st st' : St)
    (h : pollLoop p st resps = some st') :
    st'.layer = st.layer ∧ st'.total_time = st.total_time ∧
    st'.elapsed_time = st.elapsed_time ∧ st'.progress = st.progress ∧
    st'.sent = st.sent ∧ st'.displays = st.displays := by
  have hst := pollLoop_shape p resps st st' h
  rw [hst]
  exact ⟨rfl, rfl, rfl, rfl, rfl, rfl⟩

theorem send_gcode_fields (a : String) (st : St) (cmd : String) (st' : St)
    (h : send_gcode a st cmd = some st') :
    st'.layer = st.layer ∧ st'.total_time = st.total_time ∧
    st'.elapsed_time = st.elapsed_time ∧ st'.progress = st.progress ∧
    st'.sent = st.sent ++ [cmd] ∧ st'.polls = st.polls ∧
    st'.displays = st.displays := by
  have hst := send_gcode_some a st cmd st' h
  rw [hst]
  exact ⟨rfl, rfl, rfl, rfl, rfl, rfl, rfl⟩

/-- A line starting with one four-character command token does not start with
a different one. -/
theorem pyStartsWith_disjoint (line p q : String)
    (hlen : p.data.length = q.data.length) (hne : p.data ≠ q.data)
    (h : pyStartsWith line p = true) : pyStartsWith line q = false := by
  cases hqb : pyStartsWith line q with
  | false => rfl
  | true =>
    exfalso
    unfold pyStartsWith at h hqb
    rw [List.isPrefixOf_iff_prefix] at h hqb
    have hp := List.prefix_iff_eq_take.mp h
    have hq := List.prefix_iff_eq_take.mp hqb
    exact hne (by rw [hp, hq, hlen])

theorem commandDispatch_fields (a : String) (ps : List String) (st : St)
    (line : String) (st' : St) (h : commandDispatch a ps st line = some st') :
    st'.layer = st.layer ∧ st'.total_time = st.total_time ∧
    st'.elapsed_time = st.elapsed_time ∧ st'.progress = st.progress ∧
    st'.displays = st.displays := by
  unfold commandDispatch at h
  split at h
  · -- M104
    split at h
    · obtain ⟨f1, f2, f3, f4, _, _, f7⟩ := send_gcode_fields _ _ _ _ h
      exact ⟨f1, f2, f3, f4, f7⟩
    · have hst : st = st' := Option.some_inj.mp h
      subst hst
      exact ⟨rfl, rfl, rfl, rfl, rfl⟩
  · split at h
    · -- M109
      split at h
      · rcases Option.bind_eq_some.mp h with ⟨s, hs, hloop⟩
        obtain ⟨f1, f2, f3, f4, _, _, f7⟩ := send_gcode_fields _ _ _ _ hs
        obtain ⟨e1, e2, e3, e4, _, e6⟩ := pollLoop_fields _ _ _ _ hloop
        exact ⟨e1.trans f1, e2.trans f2, e3.trans f3, e4.trans f4, e6.trans f7⟩
      · have hst : st = st' := Option.some_inj.mp h
        subst hst
        exact ⟨rfl, rfl, rfl, rfl, rfl⟩
    · split at h
      · -- M190
        split at h
        · rcases Option.bind_eq_some.mp h with ⟨s, hs, hloop⟩
          obtain ⟨f1, f2, f3, f4, _, _, f7⟩ := send_gcode_fields _ _ _ _ hs
          obtain ⟨e1, e2, e3, e4, _, e6⟩ := pollLoop_fields _ _ _ _ hloop
          exact ⟨e1.trans f1, e2.trans f2, e3.trans f3, e4.trans f4, e6.trans f7⟩
        · have hst : st = st' := Option.some_inj.mp h
          subst hst
          exact ⟨rfl, rfl, rfl, rfl, rfl⟩
      · -- pass-through
        obtain ⟨f1, f2, f3, f4, _, _, f7⟩ := send_gcode_fields _ _ _ _ h
        exact ⟨f1, f2, f3, f4, f7⟩

theorem commentUpd_shape (st : St) (line : String) :
    commentUpd st line =
      { st with total_time := (commentUpd st line).total_time,
                elapsed_time := (commentUpd st line).elapsed_time,
                displays := (commentUpd st line).displays } := by
  simp only [commentUpd]
  split <;> rfl

theorem layerStep_fst (record : Bool) (st : St) (raw : String) :
    (layerStep record st raw).1 =
      if containsSubstr raw ";LAYER_CHANGE" then { st with layer := st.layer + 1 }
      else st := by
  unfold layerStep
  split <;> rfl

theorem commentUpd_layer (st : St) (line : String) :
    (commentUpd st line).layer = st.layer := by
  rw [commentUpd_shape st line]

theorem commentUpd_progress (st : St) (line : String) :
    (commentUpd st line).progress = st.progress := by
  rw [commentUpd_shape st line]

theorem commentUpd_sent (st : St) (line : String) :
    (commentUpd st line).sent = st.sent := by
  rw [commentUpd_shape st line]

theorem commentUpd_polls (st : St) (line : String) :
    (commentUpd st line).polls = st.polls := by
  rw [commentUpd_shape st line]

theorem sentinelSt_layer (st : St) : (sentinelSt st).layer = st.layer := by
  unfold sentinelSt
  split <;> rfl

theorem sentinelSt_progress (st : St) : (sentinelSt st).progress = st.progress := by
  unfold sentinelSt
  split <;> rfl

theorem sentinelSt_sent (st : St) : (sentinelSt st).sent = st.sent := by
  unfold sentinelSt
  split <;> rfl

theorem sentinelSt_elapsed (st : St) : (sentinelSt st).elapsed_time = st.elapsed_time := by
  unfold sentinelSt
  split <;> rfl

theorem sentinelSt_displays (st : St) : (sentinelSt st).displays = st.displays := by
  unfold sentinelSt
  split <;> rfl

theorem layerStep_fst_layer (record : Bool) (st : St) (raw : String) :
    (layerStep record st raw).1.layer =
      st.layer + (if containsSubstr raw ";LAYER_CHANGE" then 1 else 0) := by
  rw [layerStep_fst]
  split <;> simp

theorem layerStep_fst_rest (record : Bool) (st : St) (raw : String) :
    (layerStep record st raw).1.total_time = st.total_time ∧
    (layerStep record st raw).1.elapsed_time = st.elapsed_time ∧
    (layerStep record st raw).1.progress = st.progress ∧
    (layerStep record st raw).1.sent = st.sent ∧
    (layerStep record st raw).1.polls = st.polls ∧
    (layerStep record st raw).1.displays = st.displays := by
  rw [layerStep_fst]
  split <;> exact ⟨rfl, rfl, rfl, rfl, rfl, rfl⟩

/-- Processing any raw line changes the layer counter by exactly the
layer-change indicator of that line. -/
theorem procLine_layer (record : Bool) (a : String) (ps : List String)
    (st : St) (raw : String) (st' : St) (caps : List Nat)
    (h : procLine record a ps st raw = some (st', caps)) :
    st'.layer = st.layer + (if isLC raw then 1 else 0) := by
  by_cases hbc : blankOrComment (pyStrip raw) = true
  · simp only [procLine, hbc, if_true] at h
    have hst' : commentUpd (layerStep record st raw).1 (pyStrip raw) = st' :=
      congrArg Prod.fst (Option.some_inj.mp h)
    have hlc : isLC raw = containsSubstr raw ";LAYER_CHANGE" := by
      simp [isLC, hbc]
    rw [← hst', commentUpd_layer, layerStep_fst_layer, hlc]
  · have hbc' : blankOrComment (pyStrip raw) = false := by
      simpa using hbc
    simp only [procLine, hbc', Bool.false_eq_true, if_false] at h
    rcases Option.map_eq_some'.mp h with ⟨s, hdisp, hmk⟩
    obtain ⟨e1, _, _, _, _⟩ := commandDispatch_fields _ _ _ _ _ hdisp
    have hst' : st'.layer = s.layer := by
      have hfst : ({ s with progress := s.progress + 1 } : St) = st' :=
        congrArg Prod.fst hmk
      rw [← hfst]
    have hlc : isLC raw = false := by
      simp [isLC, hbc']
    rw [hlc, hst', e1, sentinelSt_layer]
    simp

/-- The session state after one line does not depend on the record flag (only
the capture invocations do). -/
theorem procLine_fst (r1 r2 : Bool) (a : String) (ps : List String)
    (st : St) (raw : String) :
    (procLine r1 a ps st raw).map Prod.fst = (procLine r2 a ps st raw).map Prod.fst := by
  by_cases hbc : blankOrComment (pyStrip raw) = true
  · simp only [procLine, hbc, if_true, Option.map_some']
    rw [layerStep_fst, layerStep_fst]
  · have hbc' : blankOrComment (pyStrip raw) = false := by simpa using hbc
    simp only [procLine, hbc', Bool.false_eq_true, if_false]

/-- Unfolding of the driver on a cons cell, as a bind. -/
theorem runGo_cons_bind (record : Bool) (a : String) (ps : List String)
    (st : St) (caps : List Nat) (l : String) (ls : List String) :
    runGo record a ps st caps (l :: ls) =
      (procLine record a ps st l).bind
        (fun p => runGo record a ps p.1 (caps ++ p.2) ls) := by
  cases h : procLine record a ps st l with
  | none => simp [runGo, h]
  | some p => simp [runGo, h]

/-- The final layer counter equals the starting one plus the number of
layer-change lines processed. -/
theorem runGo_layer (record : Bool) (a : String) (ps : List String) :
    ∀ (ls : List String) (st : St) (caps : List Nat) (st' : St) (caps' : List Nat),
      runGo record a ps st caps ls = some (st', caps') →
      st'.layer = st.layer + ls.countP isLC := by
  intro ls
  induction ls with
  | nil =>
    intro st caps st' caps' h
    obtain ⟨h1, _⟩ := Prod.mk.injEq _ _ _ _ ▸ Option.some_inj.mp (by simpa [runGo] using h)
    simp [← h1]
  | cons l ls ih =>
    intro st caps st' caps' h
    rw [runGo_cons_bind] at h
    rcases Option.bind_eq_some.mp h with ⟨p, hp, hrest⟩
    have hstep := procLine_layer record a ps st l p.1 p.2 (by simpa using hp)
    have htail := ih p.1 (caps ++ p.2) st' caps' hrest
    rw [htail, hstep, List.countP_cons]
    split <;> omega

/-- The final session state (first component) is independent of the record
flag and of the capture accumulator. -/
theorem runGo_fst (r1 r2 : Bool) (a : String) (ps : List String) :
    ∀ (ls : List String) (st : St) (caps1 caps2 : List Nat),
      (runGo r1 a ps st caps1 ls).map Prod.fst =
      (runGo r2 a ps st caps2 ls).map Prod.fst := by
  intro ls
  induction ls with
  | nil =>
    intro st caps1 caps2
    simp [runGo]
  | cons l ls ih =>
    intro st caps1 caps2
    rw [runGo_cons_bind, runGo_cons_bind]
    have hstep := procLine_fst r1 r2 a ps st l
    cases h1 : procLine r1 a ps st l with
    | none =>
      rw [h1] at hstep
      cases h2 : procLine r2 a ps st l with
      | none => simp
      | some p2 =>
        rw [h2] at hstep
        simp at hstep
    | some p1 =>
      rw [h1] at hstep
      cases h2 : procLine r2 a ps st l with
      | none =>
        rw [h2] at hstep
        simp at hstep
      | some p2 =>
        rw [h2] at hstep
        simp only [Option.map_some', Option.some_inj] at hstep
        simp only [Option.some_bind]
        rw [hstep]
        exact ih p2.1 (caps1 ++ p1.2) (caps2 ++ p2.2)

/-- One driver step simulates one estimator step on the estimator view. -/
theorem procLine_est (record : Bool) (a : String) (ps : List String)
    (st : St) (raw : String) (st' : St) (caps : List Nat)
    (h : procLine record a ps st raw = some (st', caps)) :
    estView st' = estStep (estView st) raw := by
  by_cases hbc : blankOrComment (pyStrip raw) = true
  · simp only [procLine, hbc, if_true] at h
    have hst' : commentUpd (layerStep record st raw).1 (pyStrip raw) = st' :=
      congrArg Prod.fst (Option.some_inj.mp h)
    obtain ⟨hT, hE, _, _, _, hD⟩ := layerStep_fst_rest record st raw
    simp only [estStep, hbc, if_true]
    rw [← hst']
    simp only [estView, commentUpd]
    rw [hT, hE, hD]
    split <;> rfl
  · have hbc' : blankOrComment (pyStrip raw) = false := by simpa using hbc
    simp only [procLine, hbc', Bool.false_eq_true, if_false] at h
    rcases Option.map_eq_some'.mp h with ⟨s, hdisp, hmk⟩
    obtain ⟨_, e2, e3, _, e5⟩ := commandDispatch_fields _ _ _ _ _ hdisp
    have hfst : ({ s with progress := s.progress + 1 } : St) = st' :=
      congrArg Prod.fst hmk
    simp only [estStep, hbc', Bool.false_eq_true, if_false]
    rw [← hfst]
    simp only [estView]
    rw [e2, e3, e5]
    unfold sentinelSt
    by_cases ht : st.total_time = none
    · rw [if_pos ht, if_pos ht]
    · rw [if_neg ht, if_neg ht]

/-- The driver simulates the estimator over any processed line list. -/
theorem runGo_est (record : Bool) (a : String) (ps : List String) :
    ∀ (ls : List String) (st : St) (caps : List Nat) (st' : St) (caps' : List Nat),
      runGo record a ps st caps ls = some (st', caps') →
      estView st' = ls.foldl estStep (estView st) := by
  intro ls
  induction ls with
  | nil =>
    intro st caps st' caps' h
    obtain ⟨h1, _⟩ := Prod.mk.injEq _ _ _ _ ▸ Option.some_inj.mp (by simpa [runGo] using h)
    simp [← h1]
  | cons l ls ih =>
    intro st caps st' caps' h
    rw [runGo_cons_bind] at h
    rcases Option.bind_eq_some.mp h with ⟨p, hp, hrest⟩
    have hstep := procLine_est record a ps st l p.1 p.2 (by simpa using hp)
    have htail := ih p.1 (caps ++ p.2) st' caps' hrest
    rw [htail, List.foldl_cons, hstep]

/-- Every completing command-class line bumps the progress counter by one and
produces no capture. -/
theorem procLine_progress (record : Bool) (a : String) (ps : List String)
    (st : St) (raw : String) (st' : St) (caps : List Nat)
    (hbc : blankOrComment (pyStrip raw) = false)
    (h : procLine record a ps st raw = some (st', caps)) :
    st'.progress = st.progress + 1 ∧ caps = [] := by
  simp only [procLine, hbc, Bool.false_eq_true, if_false] at h
  rcases Option.map_eq_some'.mp h with ⟨s, hdisp, hmk⟩
  obtain ⟨_, _, _, e4, _⟩ := commandDispatch_fields _ _ _ _ _ hdisp
  have hfst : ({ s with progress := s.progress + 1 } : St) = st' :=
    congrArg Prod.fst hmk
  have hsnd : ([] : List Nat) = caps := congrArg Prod.snd hmk
  refine ⟨?_, hsnd.symm⟩
  rw [← hfst]
  show s.progress + 1 = st.progress + 1
  rw [e4, sentinelSt_progress]

/-- A non-heating command line is handed to `send_gcode` with the stripped
raw text (inline comments included). -/
theorem procLine_passthrough (record : Bool) (a : String) (ps : List String)
    (st : St) (raw : String) (st' : St) (caps : List Nat)
    (hbc : blankOrComment (pyStrip raw) = false)
    (h104 : pyStartsWith (pyStrip raw) "M104" = false)
    (h109 : pyStartsWith (pyStrip raw) "M109" = false)
    (h190 : pyStartsWith (pyStrip raw) "M190" = false)
    (h : procLine record a ps st raw = some (st', caps)) :
    st'.sent = st.sent ++ [pyStrip raw] ∧ caps = [] := by
  simp only [procLine, hbc, Bool.false_eq_true, if_false] at h
  rcases Option.map_eq_some'.mp h with ⟨s, hdisp, hmk⟩
  simp only [commandDispatch, h104, h109, h190, Bool.false_eq_true, if_false] at hdisp
  obtain ⟨_, _, _, _, f5, _, _⟩ := send_gcode_fields _ _ _ _ hdisp
  have hfst : ({ s with progress := s.progress + 1 } : St) = st' :=
    congrArg Prod.fst hmk
  have hsnd : ([] : List Nat) = caps := congrArg Prod.snd hmk
  refine ⟨?_, hsnd.symm⟩
  rw [← hfst]
  show s.sent = st.sent ++ [pyStrip raw]
  rw [f5, sentinelSt_sent]

/-- A heating command whose temperature does not parse is dropped by the
dispatch: the state is returned unchanged. -/
theorem commandDispatch_dropped (a : String) (ps : List String) (s : St)
    (line : String)
    (hheat : pyStartsWith line "M104" = true ∨ pyStartsWith line "M109" = true ∨
      pyStartsWith line "M190" = true)
    (hparse : parse_temp line = none) :
    commandDispatch a ps s line = some s := by
  rcases hheat with h104 | h109 | h190
  · simp only [commandDispatch, h104, if_true, hparse]
  · have h104 : pyStartsWith line "M104" = false :=
      pyStartsWith_disjoint line "M109" "M104" (by decide) (by decide) h109
    simp only [commandDispatch, h104, h109, Bool.false_eq_true, if_false, if_true, hparse]
  · have h104 : pyStartsWith line "M104" = false :=
      pyStartsWith_disjoint line "M190" "M104" (by decide) (by decide) h190
    have h109 : pyStartsWith line "M109" = false :=
      pyStartsWith_disjoint line "M190" "M109" (by decide) (by decide) h190
    simp only [commandDispatch, h104, h109, h190, Bool.false_eq_true, if_false, if_true,
      hparse]

/-- Being a prefix persists under appending on the right. -/
theorem isPrefixOf_append_of (p q t : List Char) (h : p.isPrefixOf q = true) :
    p.isPrefixOf (q ++ t) = true := by
  rw [List.isPrefixOf_iff_prefix] at h ⊢
  exact h.trans (List.prefix_append q t)

/-- The bed-wait exit condition spelt out: acknowledgment plus a parsed
`B:` value at or above the target. -/
theorem bedExit_iff (t : Dec) (r : String) :
    bedExit t r = true ↔
      (ackOk r = true ∧ ∃ c, bedTemp r = some c ∧ Dec.le t c = true) := by
  unfold bedExit
  rw [Bool.and_eq_true]
  constructor
  · rintro ⟨hok, hm⟩
    refine ⟨hok, ?_⟩
    cases hbt : bedTemp r with
    | none => rw [hbt] at hm; cases hm
    | some c => rw [hbt] at hm; exact ⟨c, rfl, hm⟩
  · rintro ⟨hok, c, hc, hle⟩
    refine ⟨hok, ?_⟩
    rw [hc]
    exact hle

/-- `Dec.le` agrees with the rational order of the exact values: the bed wait
is a genuine numeric comparison. -/
theorem Dec.le_iff_toRat (x y : Dec) : Dec.le x y = true ↔ x.toRat ≤ y.toRat := by
  unfold Dec.le Dec.toRat
  rw [decide_eq_true_iff]
  rw [div_le_div_iff₀ (by positivity) (by positivity)]
  constructor
  · intro h
    exact_mod_cast h
  · intro h
    exact_mod_cast h

/-! ### Claims -/

/-- C2: for every parsed nozzle target, the `M109` wait loop terminates only
on a response containing both the case-insensitive acknowledgment token and
the literal substring `T:<target>` with the target rendered exactly as the
parsed float prints (no rounding, no numeric comparison); in particular with
the target parsed from `M109 S200` (printed `200.0`), a stub answering every
poll `ok T:199.9` never terminates the loop. -/
theorem spec_c2 :
    (∀ (t : Dec) (st : St) (resps : List String) (st' : St),
        nozzleWaitGo t st resps = some st' →
        ∃ i, i < resps.length ∧ ackOk (resps.getD i "") = true ∧
          containsSubstr (resps.getD i "") ("T:" ++ t.pyRepr) = true ∧
          ∀ j, j < i → nozzleExit t (resps.getD j "") = false) ∧
    (∀ (st : St) (resps : List String),
        (∀ r ∈ resps, r = "ok T:199.9") →
        nozzleWaitGo ⟨200, 0⟩ st resps = none) ∧
    parse_temp "M109 S200" = some ⟨200, 0⟩ ∧
    Dec.pyRepr ⟨200, 0⟩ = "200.0" ∧
    nozzleExit ⟨200, 0⟩ "ok T:199.9" = false ∧
    nozzleExit ⟨200, 0⟩ "ok T:200.0" = true := by
  refine ⟨?_, ?_, by decide, by decide, by decide, by decide⟩
  · intro t st resps st' h
    rcases (pollLoop_some_iff (nozzleExit t) resps st st').mp h with ⟨i, hi, hpi, hprev, _⟩
    have hpi2 : ackOk (resps.getD i "") = true ∧
        containsSubstr (resps.getD i "") ("T:" ++ t.pyRepr) = true := by
      have hx := hpi
      simp only [nozzleExit, Bool.and_eq_true] at hx
      exact hx
    exact ⟨i, hi, hpi2.1, hpi2.2, hprev⟩
  · intro st resps hall
    apply pollLoop_none
    intro r hr
    rw [hall r hr]
    decide

/-- Witness for C2: the never-matching stub instantiated at one concrete
response list. -/
theorem spec_c2_wit : nozzleWaitGo ⟨200, 0⟩ st0 ["ok T:199.9"] = none :=
  spec_c2.2.1 st0 ["ok T:199.9"] (by
    intro r hr
    exact List.mem_singleton.mp hr)

/-- C3 as stated is false: the bed-wait loop also requires the acknowledgment
token, so the response `B:60.5` with parsed value `60.5 ≥ 60` does not
terminate it. -/
theorem spec_c3_cex :
    bedTemp "B:60.5" = some ⟨605, 1⟩ ∧ Dec.le ⟨60, 0⟩ ⟨605, 1⟩ = true ∧
    bedWaitGo ⟨60, 0⟩ st0 ["B:60.5"] = none := by decide

/-- C3 amended: the `M190` wait loop terminates exactly on the first response
that carries the case-insensitive acknowledgment token AND a parsed `B:`
value numerically at or above the target (a true `≥` on the exact values);
responses without the token, without `B:`, or with a malformed number are
ignored and the loop continues. -/
theorem spec_c3_amended :
    (∀ (t : Dec) (st : St) (resps : List String) (st' : St),
        bedWaitGo t st resps = some st' ↔
          ∃ i, i < resps.length ∧ bedExit t (resps.getD i "") = true ∧
            (∀ j, j < i → bedExit t (resps.getD j "") = false) ∧
            st' = { st with polls := st.polls + i + 1 }) ∧
    (∀ (t : Dec) (r : String),
        bedExit t r = true ↔
          (ackOk r = true ∧ ∃ c, bedTemp r = some c ∧ Dec.le t c = true)) ∧
    (∀ (x y : Dec), Dec.le x y = true ↔ x.toRat ≤ y.toRat) ∧
    bedExit ⟨60, 0⟩ "ok B:60.5" = true ∧ bedExit ⟨60, 0⟩ "ok B:59.9" = false ∧
    bedExit ⟨60, 0⟩ "B:60.5" = false := by
  refine ⟨?_, bedExit_iff, Dec.le_iff_toRat, by decide, by decide, by decide⟩
  intro t st resps st'
  exact pollLoop_some_iff (bedExit t) resps st st'

/-- Witness for C3: a first ignored response, then `ok B:60.5` against target
`60` ends the loop on the second poll. -/
theorem spec_c3_wit :
    bedWaitGo ⟨60, 0⟩ st0 ["B:61", "ok B:60.5"] =
      some { st0 with polls := st0.polls + 1 + 1 } :=
  (spec_c3_amended.1 ⟨60, 0⟩ st0 ["B:61", "ok B:60.5"] _).mpr
    ⟨1, by decide, by decide,
      (by
        intro j hj
        have hj0 : j = 0 := by omega
        subst hj0
        decide),
      rfl⟩

/-- C4 as stated is false: the raw line `"; LAYER_CHANGE\n"` begins with the
comment marker and contains `LAYER_CHANGE`, yet the run neither increments
the layer counter nor invokes a capture, because the code looks for the exact
substring `";LAYER_CHANGE"` in the raw line. -/
theorem spec_c4_cex :
    pyStartsWith (pyStrip "; LAYER_CHANGE\n") ";" = true ∧
    containsSubstr "; LAYER_CHANGE\n" "LAYER_CHANGE" = true ∧
    (run true "ok" [] ["; LAYER_CHANGE\n"]).map (fun p => (p.1.layer, p.2)) =
      some (0, []) := by decide

/-- C4 amended: every raw line that reaches the comment branch (blank or
`;`-initial once stripped) and contains the exact substring `";LAYER_CHANGE"`
anywhere in the raw text is treated as a layer change: the counter increments
by one and, when recording is enabled, one capture at the new layer number is
invoked, regardless of any other text on the line. -/
theorem spec_c4_amended :
    ∀ (record : Bool) (a : String) (ps : List String) (st : St) (raw : String),
      isLC raw = true →
      ∃ st' caps, procLine record a ps st raw = some (st', caps) ∧
        st'.layer = st.layer + 1 ∧
        caps = (if record then [st.layer + 1] else []) := by
  intro record a ps st raw h
  have h2 : blankOrComment (pyStrip raw) = true ∧
      containsSubstr raw ";LAYER_CHANGE" = true := by
    have hx := h
    simp only [isLC, Bool.and_eq_true] at hx
    exact hx
  obtain ⟨hbc, hct⟩ := h2
  refine ⟨commentUpd (layerStep record st raw).1 (pyStrip raw), (layerStep record st raw).2,
    ?_, ?_, ?_⟩
  · simp only [procLine, hbc, if_true]
  · rw [commentUpd_layer, layerStep_fst_layer, hct]
    simp
  · simp [layerStep, hct]

/-- Witness for C4: the line `";LAYER_CHANGE\n"` with recording enabled. -/
theorem spec_c4_wit :
    ∃ st' caps, procLine true "ok" [] st0 ";LAYER_CHANGE\n" = some (st', caps) ∧
      st'.layer = st0.layer + 1 ∧
      caps = (if true then [st0.layer + 1] else []) :=
  spec_c4_amended true "ok" [] st0 ";LAYER_CHANGE\n" (by decide)

/-- C5: over every input file, transport behavior and record setting, a
completed run's layer counter equals the number of layer-change lines (so it
starts at 0, moves only on layer changes, and increases by exactly one on
each); and the whole session state is independent of the record flag. -/
theorem spec_c5 :
    (∀ (record : Bool) (a : String) (ps : List String) (lines : List String)
        (st' : St) (caps : List Nat),
        run record a ps lines = some (st', caps) →
        st'.layer = lines.countP isLC) ∧
    (∀ (r1 r2 : Bool) (a : String) (ps : List String) (lines : List String),
        (run r1 a ps lines).map Prod.fst = (run r2 a ps lines).map Prod.fst) := by
  constructor
  · intro record a ps lines st' caps h
    have hl := runGo_layer record a ps lines st0 [] st' caps h
    simpa [st0] using hl
  · intro r1 r2 a ps lines
    exact runGo_fst r1 r2 a ps lines st0 [] []

/-- Witness for C5: a two-line file with one layer change. -/
theorem spec_c5_wit :
    ({ layer := 1, total_time := some (-1), elapsed_time := ⟨0, 0⟩, progress := 1,
       sent := ["G28"], polls := 0, displays := [] } : St).layer =
      ([";LAYER_CHANGE\n", "G28\n"].countP isLC) :=
  spec_c5.1 false "ok" [] [";LAYER_CHANGE\n", "G28\n"] _ [] (by decide)

/-- C9 as stated is false: the pass-through line `G1 X10 ; move` is
transmitted with its trailing inline comment intact — `clean_line` produces
the effective command `G1 X10`, but only `parse_temp` ever uses it; the
transport receives the stripped raw line. -/
theorem spec_c9_cex :
    (run false "ok" [] ["G1 X10 ; move\n"]).map (fun p => p.1.sent) =
      some ["G1 X10 ; move"] ∧
    clean_line "G1 X10 ; move\n" = "G1 X10" ∧
    ("G1 X10 ; move" : String) ≠ "G1 X10" := by decide

/-- C9 amended: every non-blank, non-comment line that is not an
`M104`/`M109`/`M190` heating command is transmitted verbatim as the
whitespace-stripped raw line, inline comment included (the comment-stripped
effective command is used only for temperature extraction), with no capture. -/
theorem spec_c9_amended :
    ∀ (record : Bool) (a : String) (ps : List String) (st : St) (raw : String)
      (st' : St) (caps : List Nat),
      blankOrComment (pyStrip raw) = false →
      pyStartsWith (pyStrip raw) "M104" = false →
      pyStartsWith (pyStrip raw) "M109" = false →
      pyStartsWith (pyStrip raw) "M190" = false →
      procLine record a ps st raw = some (st', caps) →
      st'.sent = st.sent ++ [pyStrip raw] ∧ caps = [] := by
  intro record a ps st raw st' caps hbc h104 h109 h190 h
  exact procLine_passthrough record a ps st raw st' caps hbc h104 h109 h190 h

/-- Witness for C9: `G28` appended verbatim to the transmission log. -/
theorem spec_c9_wit :
    ({ layer := 0, total_time := some (-1), elapsed_time := ⟨0, 0⟩, progress := 1,
       sent := ["G28"], polls := 0, displays := [] } : St).sent =
        st0.sent ++ [pyStrip "G28\n"] ∧ ([] : List Nat) = [] :=
  spec_c9_amended false "ok" [] st0 "G28\n" _ []
    (by decide) (by decide) (by decide) (by decide) (by decide)

/-- C10: an `M104`/`M109`/`M190` line whose temperature does not parse is
silently dropped — nothing is sent, no poll is written, no wait runs, the
state is unchanged apart from the possible missing-`;TIME:` sentinel — yet
the progress counter still advances by one, as it does for every completing
command-class line. -/
theorem spec_c10 :
    (∀ (record : Bool) (a : String) (ps : List String) (st : St) (raw : String),
        blankOrComment (pyStrip raw) = false →
        (pyStartsWith (pyStrip raw) "M104" = true ∨
          pyStartsWith (pyStrip raw) "M109" = true ∨
          pyStartsWith (pyStrip raw) "M190" = true) →
        parse_temp (pyStrip raw) = none →
        procLine record a ps st raw =
            some ({ sentinelSt st with progress := st.progress + 1 }, []) ∧
          (sentinelSt st).sent = st.sent ∧ (sentinelSt st).polls = st.polls) ∧
    (∀ (record : Bool) (a : String) (ps : List String) (st : St) (raw : String)
        (st' : St) (caps : List Nat),
        blankOrComment (pyStrip raw) = false →
        procLine record a ps st raw = some (st', caps) →
        st'.progress = st.progress + 1) := by
  constructor
  · intro record a ps st raw hbc hheat hparse
    refine ⟨?_, sentinelSt_sent st, ?_⟩
    · simp only [procLine, hbc, Bool.false_eq_true, if_false,
        commandDispatch_dropped a ps (sentinelSt st) (pyStrip raw) hheat hparse,
        Option.map_some']
      rw [sentinelSt_progress]
    · unfold sentinelSt
      split <;> rfl
  · intro record a ps st raw st' caps hbc h
    exact (procLine_progress record a ps st raw st' caps hbc h).1

/-- Witness for C10: `M109 Sabc` is dropped but still advances progress. -/
theorem spec_c10_wit :
    (procLine false "ok" [] st0 "M109 Sabc\n" =
        some ({ sentinelSt st0 with progress := st0.progress + 1 }, []) ∧
      (sentinelSt st0).sent = st0.sent ∧ (sentinelSt st0).polls = st0.polls) :=
  spec_c10.1 false "ok" [] st0 "M109 Sabc\n" (by decide)
    (Or.inr (Or.inl (by decide))) (by decide)

/-- C6 as stated is false: in the file `G28` then `;c` no `;TIME:` annotation
is ever observed, yet the comment line displays a remaining-time estimate
(`-1`, from the missing-`;TIME:` sentinel installed at the first non-comment
line). -/
theorem spec_c6_cex :
    (run false "ok" [] ["G28\n", ";c\n"]).map (fun p => p.1.displays) =
      some [⟨-1, 0⟩] ∧
    (∀ raw ∈ (["G28\n", ";c\n"] : List String),
      pyStartsWith (pyStrip raw) ";TIME:" = false) := by decide

/-- C6 amended: a completed run's displayed estimates, declared total and
elapsed value are exactly those of the specification estimator: each
comment-class line first applies any well-formed `;TIME:`/`;TIME_ELAPSED:`
annotation (last write wins) and then displays `total - elapsed` (negative
values as-is) whenever a total is set; nothing is displayed before the first
total, but the first non-comment line reached with no total installs the `-1`
sentinel, after which comment lines display `-1 - elapsed`. -/
theorem spec_c6_amended :
    ∀ (record : Bool) (a : String) (ps : List String) (lines : List String)
      (st' : St) (caps : List Nat),
      run record a ps lines = some (st', caps) →
      st'.displays = (estRun lines).out ∧
      st'.total_time = (estRun lines).total_time ∧
      st'.elapsed_time = (estRun lines).elapsed_time := by
  intro record a ps lines st' caps h
  have hsim : estView st' = estRun lines := by
    have hx := runGo_est record a ps lines st0 [] st' caps h
    simpa [estRun, estView, st0] using hx
  exact ⟨congrArg Est.out hsim, congrArg Est.total_time hsim,
    congrArg Est.elapsed_time hsim⟩

/-- Witness for C6: a total of 10 then an elapsed of 25 displays 10 and then
the negative remainder -15, unclamped. -/
theorem spec_c6_wit :
    ({ layer := 0, total_time := some 10, elapsed_time := ⟨25, 0⟩, progress := 0,
       sent := [], polls := 0, displays := [⟨10, 0⟩, ⟨-15, 0⟩] } : St).displays =
        (estRun [";TIME:10\n", ";TIME_ELAPSED:25\n"]).out ∧
      ({ layer := 0, total_time := some 10, elapsed_time := ⟨25, 0⟩, progress := 0,
         sent := [], polls := 0, displays := [⟨10, 0⟩, ⟨-15, 0⟩] } : St).total_time =
        (estRun [";TIME:10\n", ";TIME_ELAPSED:25\n"]).total_time ∧
      ({ layer := 0, total_time := some 10, elapsed_time := ⟨25, 0⟩, progress := 0,
         sent := [], polls := 0, displays := [⟨10, 0⟩, ⟨-15, 0⟩] } : St).elapsed_time =
        (estRun [";TIME:10\n", ";TIME_ELAPSED:25\n"]).elapsed_time :=
  spec_c6_amended false "ok" [] [";TIME:10\n", ";TIME_ELAPSED:25\n"] _ [] (by decide)

/-- C7 as stated is false: after the sentinel is installed at `G28`, the
later `;TIME:100` annotation is not ignored — it overwrites the sentinel and
the following comment lines display the estimate 100; the "unknown" state is
neither silent nor permanent. -/
theorem spec_c7_cex :
    (run false "ok" [] ["G28\n", ";TIME:100\n", ";c\n"]).map
        (fun p => (p.1.total_time, p.1.displays)) =
      some (some 100, [⟨100, 0⟩, ⟨100, 0⟩]) := by decide

/-- C7 amended: the missing-`;TIME:` state is the ordinary value `-1` of
`total_time`, not a permanent "unknown": while it is in force comment lines
display `-1 - elapsed` rather than reporting unavailable, and any later
well-formed `;TIME:<n>` line overwrites it with `n` and immediately displays
`n - elapsed`. -/
theorem spec_c7_amended :
    ∀ (record : Bool) (a : String) (ps : List String) (st : St) (s : String)
      (n : Int),
      st.total_time = some (-1) →
      pyStrip (";TIME:" ++ s) = ";TIME:" ++ s →
      ':' ∉ s.data →
      containsSubstr (";TIME:" ++ s) ";LAYER_CHANGE" = false →
      pyParseInt s = some n →
      procLine record a ps st (";TIME:" ++ s) =
        some
          ({ st with
              total_time := some n
              elapsed_time := st.elapsed_time
              displays := st.displays ++ [Dec.sub (Dec.ofInt n) st.elapsed_time] },
           []) := by
  intro record a ps st s n htot hstrip hcolon hlc hparse
  have hdata : (";TIME:" ++ s).data = ";TIME".data ++ ':' :: s.data := by
    rw [str_data_append]
    rfl
  have hne : ((";TIME:" ++ s : String) == "") = false := by
    have hd : (";TIME:" ++ s).data ≠ [] := by
      rw [hdata]
      simp
    simp only [beq_eq_false_iff_ne]
    intro he
    apply hd
    rw [he]
  have hsemi : pyStartsWith (";TIME:" ++ s) ";" = true := by
    unfold pyStartsWith
    rw [str_data_append]
    exact isPrefixOf_append_of ";".data ";TIME:".data s.data (by decide)
  have hbc : blankOrComment (pyStrip (";TIME:" ++ s)) = true := by
    rw [hstrip]
    unfold blankOrComment
    rw [hne, hsemi]
    rfl
  have htime : pyStartsWith (";TIME:" ++ s) ";TIME:" = true := by
    unfold pyStartsWith
    rw [str_data_append]
    exact isPrefixOf_self_append ";TIME:".data s.data
  have hsplit : pySplitCh (";TIME:" ++ s) ':' = [";TIME", s] := by
    unfold pySplitCh
    rw [hdata, splitCh_append_cons ':' ";TIME".data s.data (by decide),
      splitCh_of_not_mem ':' s.data hcolon]
    simp [str_mk_data]
  simp only [procLine, hbc, if_true, layerStep, hlc, Bool.false_eq_true, if_false]
  rw [hstrip]
  simp [commentUpd, timeUpd, htime, hsplit, hparse]

/-- Witness for C7: in the sentinel state, `;TIME:42` restores a total of 42
and displays it. -/
theorem spec_c7_wit :
    procLine false "ok" [] { st0 with total_time := some (-1) } (";TIME:" ++ "42") =
      some
        ({ { st0 with total_time := some (-1) } with
            total_time := some 42
            elapsed_time := ({ st0 with total_time := some (-1) } : St).elapsed_time
            displays := ({ st0 with total_time := some (-1) } : St).displays ++
              [Dec.sub (Dec.ofInt 42)
                ({ st0 with total_time := some (-1) } : St).elapsed_time] },
         []) :=
  spec_c7_amended false "ok" [] { st0 with total_time := some (-1) } "42" 42
    rfl (by decide) (by decide) (by decide) (by decide)

/-- C8 as stated is false: in `M190 S60 X5` the `S` parameter is followed by
a further parameter, and the extraction returns nothing at all rather than
the well-formed number 60 — `float("60 X5")` fails, so the command will be
dropped. -/
theorem spec_c8_cex :
    parse_temp "M190 S60 X5" = none ∧ pyParseFloat "60" = some ⟨60, 0⟩ := by decide

/-- C8 amended: the extracted target equals the number exactly (no rounding)
precisely when the text from the first `S` to the next `S` or the end of the
comment-stripped command is itself a well-formed number; an `S` number
followed by further parameters yields no temperature at all. -/
theorem spec_c8_amended :
    ∀ (a n : List Char) (q : Dec),
      ';' ∉ a → 'S' ∉ a → ';' ∉ n → 'S' ∉ n →
      stripWsL (a ++ 'S' :: n) = a ++ 'S' :: n →
      pyParseFloatL n = some q →
      parse_temp (String.mk (a ++ 'S' :: n)) = some q := by
  intro a n q hsa hSa hsn hSn hstrip hparse
  have hsemiAll : ';' ∉ a ++ 'S' :: n := by
    intro hm
    rcases List.mem_append.mp hm with hm | hm
    · exact hsa hm
    · rcases List.mem_cons.mp hm with hm | hm
      · exact absurd hm (by decide)
      · exact hsn hm
  have hclean : clean_line (String.mk (a ++ 'S' :: n)) = String.mk (a ++ 'S' :: n) := by
    unfold clean_line pySplitCh
    rw [show (String.mk (a ++ 'S' :: n)).data = a ++ 'S' :: n from rfl]
    rw [splitCh_of_not_mem ';' _ hsemiAll]
    simp only [List.map, List.getD_cons_zero]
    unfold pyStrip
    rw [show (String.mk (a ++ 'S' :: n)).data = a ++ 'S' :: n from rfl, hstrip]
  have hcontains : containsSubstr (String.mk (a ++ 'S' :: n)) "S" = true := by
    unfold containsSubstr
    rw [show ("S" : String).data = ['S'] from rfl]
    exact (infixOfL_singleton 'S' _).mpr (by simp)
  simp only [parse_temp, hclean, hcontains, if_true]
  rw [splitCh_append_cons 'S' a n hSa, splitCh_of_not_mem 'S' n hSn]
  simp only [List.getD_cons_succ, List.getD_cons_zero]
  exact hparse

/-- Witness for C8: `M109 S200.5` parses to exactly 200.5. -/
theorem spec_c8_wit :
    parse_temp (String.mk ("M109 ".data ++ 'S' :: "200.5".data)) = some ⟨2005, 1⟩ ∧
    String.mk ("M109 ".data ++ 'S' :: "200.5".data) = "M109 S200.5" :=
  ⟨spec_c8_amended "M109 ".data "200.5".data ⟨2005, 1⟩ (by decide) (by decide)
      (by decide) (by decide) (by decide) (by decide),
    by decide⟩

/-- C1 as stated is false: against the stub that answers every temperature
poll with `ok T:200`, the nozzle wait after `M109 S200` never exits (the
parsed float target prints as `200.0`, so the loop demands the substring
`T:200.0`), and the run stalls: even with five poll replies available it
never completes. -/
theorem spec_c1_cex :
    run true "ok" (List.replicate 5 "ok T:200") c1lines = none := by decide

/-- C1 amended: with the poll stub answering `ok T:200.0` — the textual form
of the parsed target — the run performs exactly one capture at layer 1,
transmits exactly `G28`, `M109 S200`, `G1 X10` in order, and the nozzle wait
exits after a single poll; with the stub answering `ok T:200` the wait loop
never exits, for every number of replies. -/
theorem spec_c1_amended :
    run true "ok" ["ok T:200.0"] c1lines =
      some ({ layer := 1, total_time := some (-1), elapsed_time := ⟨0, 0⟩,
              progress := 3, sent := ["G28", "M109 S200", "G1 X10"], polls := 1,
              displays := [⟨-1, 0⟩] }, [1]) ∧
    ∀ pn : Nat, run true "ok" (List.replicate pn "ok T:200") c1lines = none := by
  constructor
  · decide
  · intro pn
    have hnz : ∀ s : St,
        pollLoop (nozzleExit ⟨200, 0⟩) s (List.replicate pn "ok T:200") = none := by
      intro s
      apply pollLoop_none
      intro r hr
      rw [List.eq_of_mem_replicate hr]
      decide
    show runGo true "ok" (List.replicate pn "ok T:200") st0 [] c1lines = none
    rw [show (c1lines : List String) =
      "G28\n" :: ";LAYER_CHANGE\n" :: "M109 S200\n" :: ["G1 X10\n"] from rfl]
    rw [runGo_cons_bind]
    rw [show procLine true "ok" (List.replicate pn "ok T:200") st0 "G28\n" =
      some ({ layer := 0, total_time := some (-1), elapsed_time := ⟨0, 0⟩,
              progress := 1, sent := ["G28"], polls := 0, displays := [] }, [])
      from rfl]
    simp only [Option.some_bind]
    rw [runGo_cons_bind]
    rw [show procLine true "ok" (List.replicate pn "ok T:200")
        { layer := 0, total_time := some (-1), elapsed_time := ⟨0, 0⟩,
          progress := 1, sent := ["G28"], polls := 0, displays := [] }
        ";LAYER_CHANGE\n" =
      some ({ layer := 1, total_time := some (-1), elapsed_time := ⟨0, 0⟩,
              progress := 1, sent := ["G28"], polls := 0,
              displays := [⟨-1, 0⟩] }, [1]) from rfl]
    simp only [Option.some_bind]
    rw [runGo_cons_bind]
    rw [show procLine true "ok" (List.replicate pn "ok T:200")
        { layer := 1, total_time := some (-1), elapsed_time := ⟨0, 0⟩,
          progress := 1, sent := ["G28"], polls := 0, displays := [⟨-1, 0⟩] }
        "M109 S200\n" =
      (pollLoop (nozzleExit ⟨200, 0⟩)
          { layer := 1, total_time := some (-1), elapsed_time := ⟨0, 0⟩,
            progress := 1, sent := ["G28", "M109 S200"], polls := 0,
            displays := [⟨-1, 0⟩] }
          (List.replicate pn "ok T:200")).map
        (fun s => ({ s with progress := s.progress + 1 }, [])) from rfl]
    rw [hnz]
    simp

/-- Witness for C1: the stalling half at three replies. -/
theorem spec_c1_wit :
    run true "ok" (List.replicate 3 "ok T:200") c1lines = none :=
  spec_c1_amended.2 3
